import Mathlib

/-!
Verification of the SimpleFS user-space filesystem (src/fs.c) against its
natural-language specification.

The embedding is byte-level: a disk is a function from block numbers to
blocks, and a block is a function from byte offsets to byte values.  All
multi-byte on-disk fields are signed 32-bit little-endian integers, decoded
and encoded explicitly, so that the source's reinterpretations of one
4096-byte buffer as superblock, inode array, pointer array or raw data are
modelled faithfully.  C `int` arithmetic is modelled with `Int.div` /
`Int.mod` (truncation toward zero, as C99 specifies).  Uninitialized C
memory (stack buffers, `malloc` results) is modelled by explicit `junk`
parameters where an operation can observe it.
-/

namespace SimpleFS

/-- A 4096-byte disk block: byte offset to byte value.  Blocks built by the
operations only ever store values < 256. -/
def Block : Type := Int → Nat

/-- The disk image: block number to block. -/
def Disk : Type := Int → Block

/-- An in-memory bitmap (`bitmap_t` with `bitmap_test`/`bitmap_set`):
index to bit.  `true` is a set bit (= free, in both bitmaps). -/
def Bitmap : Type := Int → Bool

/-- The all-zero block. -/
def zeroBlock : Block := fun _ => 0

/-- Write one byte of a block. -/
def setByte (blk : Block) (off : Int) (v : Nat) : Block :=
  fun o => if o = off then v else blk o

/-- Store a 32-bit value (given as a natural, taken mod 2^32) little-endian. -/
def setU32 (blk : Block) (off : Int) (v : Nat) : Block :=
  setByte (setByte (setByte (setByte blk off (v % 256))
    (off + 1) (v / 256 % 256)) (off + 2) (v / 65536 % 256)) (off + 3) (v / 16777216 % 256)

/-- Read 4 bytes little-endian as an unsigned 32-bit value. -/
def decodeU32 (blk : Block) (off : Int) : Nat :=
  blk off % 256 + 256 * (blk (off + 1) % 256) + 65536 * (blk (off + 2) % 256)
    + 16777216 * (blk (off + 3) % 256)

/-- Reinterpret an unsigned 32-bit value as a signed C `int`. -/
def toSigned (n : Nat) : Int :=
  if n < 2147483648 then (n : Int) else (n : Int) - 4294967296

/-- The 32-bit two's-complement bit pattern of a signed value. -/
def encodeI32 (v : Int) : Nat := (v % 4294967296).toNat

/-- Store a signed C `int` on disk. -/
def setI32 (blk : Block) (off : Int) (v : Int) : Block := setU32 blk off (encodeI32 v)

/-- Read a signed C `int` from disk. -/
def decodeI32 (blk : Block) (off : Int) : Int := toSigned (decodeU32 blk off)

/-- `disk_write`: replace one block of the disk image. -/
def diskWrite (d : Disk) (bn : Int) (blk : Block) : Disk :=
  fun b => if b = bn then blk else d b

/-- `bitmap_set` (the xor formulation in the source is an idempotent
set of one bit). -/
def bmSet (bm : Bitmap) (idx : Int) (v : Bool) : Bitmap :=
  fun i => if i = idx then v else bm i

/-- The `min` helper of fs.c. -/
def cmin (a b : Int) : Int := if a < b then a else b

/-- The decoded view of one 32-byte inode record (`struct fs_inode`) at a
slot of an inode-table block: `isvalid`, `size`, `direct[0..4]`,
`indirect`, each a signed 32-bit field. -/
structure InodeView where
  isvalid : Int
  size : Int
  direct : Int → Int
  indirect : Int

/-- Decode the inode at slot `slot` of an inode-table block. -/
def inodeAt (blk : Block) (slot : Int) : InodeView where
  isvalid := decodeI32 blk (32 * slot)
  size := decodeI32 blk (32 * slot + 4)
  direct := fun t => decodeI32 blk (32 * slot + 8 + 4 * t)
  indirect := decodeI32 blk (32 * slot + 28)

/-- Number of data blocks covering `size` bytes, capped at 5 + 1024
(the stop conditions of `walk_inode_data`). -/
def contentBlockCount (sz : Int) : Nat := min ((sz.toNat + 4095) / 4096) 1029

/-- `walk_inode_data`: the ordered data-block numbers backing an inode's
content — the first five from `direct`, the rest from the indirect block
(read from the given disk).  The indirect block itself is never yielded. -/
def walkBlocks (d : Disk) (ino : InodeView) : List Int :=
  (List.range (contentBlockCount ino.size)).map fun (c : Nat) =>
    if (c : Int) < 5 then ino.direct (c : Int)
    else decodeI32 (d ino.indirect) (4 * ((c : Int) - 5))

/-- The walker as its callers consume it: they iterate while the yielded
block number is positive, so a nonpositive entry ends the traversal. -/
def walkPos (d : Disk) (ino : InodeView) : List Int :=
  (walkBlocks d ino).takeWhile fun b => decide (0 < b)

/-- The whole mount state: the disk image, the emulator's block count
(`disk_size()`), the two bitmaps (`inode_table_bitmap`,
`disk_block_bitmap`) and the `is_mounted` flag. -/
structure FSState where
  nblocksDisk : Nat
  disk : Disk
  inode_table_bitmap : Bitmap
  disk_block_bitmap : Bitmap
  is_mounted : Bool

/-- `fs_getsize`.  Note the source reads `buffer_block.inodes[inumber]`
while `buffer_block` still holds block 0 (the superblock): the inode is
decoded from block 0, not from its inode-table block. -/
def fs_getsize (s : FSState) (inumber : Int) : Int :=
  if s.is_mounted = false then -1
  else
    let sb := s.disk 0
    if inumber ≤ 0 ∨ decodeI32 sb 12 ≤ inumber then -1
    else
      let iv := decodeI32 (s.disk 0) (32 * inumber)
      if iv = 0 then -1 else decodeI32 (s.disk 0) (32 * inumber + 4)

/-- `fs_format`: zero the `isvalid` field of all 128 inode slots of one
inode-table block. -/
def zeroIsvalids (blk : Block) : Block :=
  (List.range 128).foldl (fun b (k : Nat) => setI32 b (32 * (k : Int)) 0) blk

/-- `fs_format`.  Refuses when mounted; writes the superblock (`magic`,
`nblocks = disk_size()`, `ninodeblocks = nblocks / 10` in C integer
division, `ninodes = ninodeblocks * 128`), then rewrites every
inode-table block with all `isvalid` fields zeroed. -/
def fs_format (s : FSState) : FSState × Int :=
  if s.is_mounted then (s, 0)
  else
    let nb : Int := (s.nblocksDisk : Int)
    let nibt := Int.tdiv nb 10
    let blk0 := setI32 (setI32 (setI32 (setU32 (s.disk 0) 0 0xf0f03410) 4 nb) 8 nibt)
      12 (nibt * 128)
    let d1 := diskWrite s.disk 0 blk0
    let d2 := (List.range nibt.toNat).foldl
      (fun d (b : Nat) => diskWrite d ((b : Int) + 1) (zeroIsvalids (d ((b : Int) + 1)))) d1
    ({ s with disk := d2 }, 1)

/-- `fs_mount`.  Fails if already mounted or on a magic mismatch.  Builds
the block bitmap (`free` outside the superblock + inode table), then walks
every inode slot: records `!isvalid` in the inode bitmap and, for live
inodes, clears the bit of every data block the walker yields.  The source
compares the yielded block NUMBER with `DATA_POINTERS_PER_INODE` (5) when
deciding to clear the indirect block's own bit — that comparison is kept
as written. -/
def fs_mount (s : FSState) : FSState × Int :=
  if s.is_mounted then (s, 0)
  else
    let sb := s.disk 0
    if decodeU32 sb 0 ≠ 0xf0f03410 then (s, 0)
    else
      let nblocks := decodeI32 sb 4
      let ninodeblocks := decodeI32 sb 8
      let ninodes := decodeI32 sb 12
      let bbm1 := (List.range nblocks.toNat).foldl
        (fun bm (i : Nat) => bmSet bm (i : Int) (if (i : Int) < ninodeblocks + 1 then false else true))
        (fun _ => false)
      let ibm1 := bmSet (fun _ => false) 0 false
      let step : (Bitmap × Bitmap) → Nat → (Bitmap × Bitmap) := fun p inumN =>
        let inum : Int := (inumN : Int)
        let blk := s.disk (Int.tdiv inum 128 + 1)
        let ino := inodeAt blk (Int.tmod inum 128)
        let ibm' := bmSet p.1 inum (if ino.isvalid = 0 then true else false)
        if ino.isvalid = 0 then (ibm', p.2)
        else
          let bbm' := (walkPos s.disk ino).foldl
            (fun bm b => bmSet (if b = 5 then bmSet bm ino.indirect false else bm) b false) p.2
          (ibm', bbm')
      let p := ((List.range ninodes.toNat).drop 1).foldl step (ibm1, bbm1)
      ({ s with inode_table_bitmap := p.1, disk_block_bitmap := p.2, is_mounted := true }, 1)

/-- `fs_delete`.  Validates the inumber and `isvalid`, clears `isvalid`
and writes the table block back, then walks the (modified buffer's) inode
and sets the block bitmap's bit for every yielded data block; finally
frees the inode's bit.  The indirect block's own bit is never touched. -/
def fs_delete (s : FSState) (inumber : Int) : FSState × Int :=
  if s.is_mounted = false then (s, 0)
  else if inumber < 1 ∨ decodeI32 (s.disk 0) 12 ≤ inumber then (s, 0)
  else
    let ibn := 1 + Int.tdiv inumber 128
    let slot := Int.tmod inumber 128
    let blk := s.disk ibn
    if decodeI32 blk (32 * slot) = 0 then (s, 0)
    else
      let blk' := setI32 blk (32 * slot) 0
      let d' := diskWrite s.disk ibn blk'
      let bbm' := (walkPos d' (inodeAt blk' slot)).foldl
        (fun bm b => bmSet bm b true) s.disk_block_bitmap
      ({ s with disk := d', disk_block_bitmap := bbm',
                inode_table_bitmap := bmSet s.inode_table_bitmap inumber true }, 1)

/-- One inner byte-copy loop of `fs_read`: the bytes of `blk` from offset
`j` up to the end of the block, at most `todo` of them. -/
def readFromBlock (blk : Block) (j : Int) (todo : Nat) : List Nat :=
  (List.range (min todo (4096 - j).toNat)).map fun (t : Nat) => blk (j + (t : Int))

/-- The direct-pointer loop of `fs_read`: from logical block `i` with
in-block cursor `j`, while `i < 5` and bytes remain.  Returns the bytes
read together with the final values of `i` and `j`. -/
def readDirLoop (d : Disk) (ino : InodeView) :
    Nat → Int → Int → Nat → (List Nat × Int × Int)
  | 0, i, j, _ => ([], i, j)
  | Nat.succ fuel, i, j, todo =>
    if i < 5 ∧ 0 < todo then
      let got := readFromBlock (d (ino.direct i)) j todo
      let rest := readDirLoop d ino fuel (i + 1) 0 (todo - got.length)
      (got ++ rest.1, rest.2)
    else ([], i, j)

/-- The indirect-pointer loop of `fs_read`, over the pointer array the
source builds with `memcpy(indirected_pointers, buffer_block.pointers,
DATA_POINTERS_PER_BLOCK)` — only 1024 bytes, i.e. the first 256 of the
1024 pointers; the rest of the local array stays uninitialized. -/
def readIndLoop (d : Disk) (ptr : Int → Int) :
    Nat → Int → Int → Nat → List Nat
  | 0, _, _, _ => []
  | Nat.succ fuel, i, j, todo =>
    if i < 1024 ∧ 0 < todo then
      let got := readFromBlock (d (ptr i)) j todo
      got ++ readIndLoop d ptr fuel (i + 1) 0 (todo - got.length)
    else []

/-- `fs_read`.  `junk` models the uninitialized tail of the local
`indirected_pointers` array (indices 256 and above).  Returns the
unchanged state, the byte count, and the bytes placed in the caller's
buffer. -/
def fs_read (s : FSState) (junk : Int → Int) (inumber length offset : Int) :
    FSState × Int × List Nat :=
  if s.is_mounted = false then (s, 0, [])
  else
    let sb := s.disk 0
    if inumber ≤ 0 ∨ decodeI32 sb 12 ≤ inumber then (s, 0, [])
    else
      let blk := s.disk (Int.tdiv inumber 128 + 1)
      let ino := inodeAt blk (Int.tmod inumber 128)
      if ino.isvalid = 0 ∨ ino.size < offset then (s, 0, [])
      else
        let distance := cmin length (ino.size - offset)
        let i0 := Int.tdiv offset 4096
        let j0 := Int.tmod offset 4096
        let dir := readDirLoop s.disk ino (5 - i0).toNat i0 j0 distance.toNat
        let indBlk := s.disk ino.indirect
        let ptr : Int → Int := fun idx =>
          if idx < 256 then decodeI32 indBlk (4 * idx) else junk idx
        let ind := readIndLoop s.disk ptr (1024 - (dir.2.1 - 5)).toNat (dir.2.1 - 5)
          dir.2.2 (distance.toNat - dir.1.length)
        let out := dir.1 ++ ind
        (s, (out.length : Int), out)

/-- `alloc_block`: first set bit of the block bitmap below `nblocks`;
clears it and returns its index, or fails when none is set. -/
def alloc_block (bm : Bitmap) (nblocks : Int) : Option (Int × Bitmap) :=
  match (List.range nblocks.toNat).find? (fun (k : Nat) => bm (k : Int)) with
  | none => none
  | some k => some ((k : Int), bmSet bm (k : Int) false)

/-- The pieces of state `fs_write` threads through its loops: the disk,
the block bitmap, the buffered inode-table block, and the byte count. -/
structure WSt where
  d : Disk
  bm : Bitmap
  iblk : Block
  written : Nat

/-- One inner byte-copy loop of `fs_write`: overwrite `blk` from offset
`j` to the end of the block with bytes of `src` starting at `pos`, at
most `todo` of them.  Returns the block and the count written. -/
def writeBlockBytes (blk : Block) (j : Int) (src : Int → Nat) (pos : Nat) (todo : Nat) :
    Block × Nat :=
  let count := min todo (4096 - j).toNat
  (fun o => if j ≤ o ∧ o < j + (count : Int) then src ((pos : Int) + (o - j)) else blk o,
    count)

/-- The direct-pointer loop of `fs_write`.  Allocates a block when the
logical index reaches `numPtrs` (the pre-write pointer count); on
allocation failure returns with the flag `false` and the source's early
return sequence takes over.  Returns state, final `i`, final `j`, flag. -/
def writeDirLoop (src : Int → Nat) (length numPtrs nblocks slot : Int) :
    Nat → Int → Int → WSt → (WSt × Int × Int × Bool)
  | 0, i, j, st => (st, i, j, true)
  | Nat.succ fuel, i, j, st =>
    if i < 5 ∧ (st.written : Int) < length then
      if numPtrs ≤ i then
        match alloc_block st.bm nblocks with
        | none => (st, i, j, false)
        | some kb =>
          let iblk1 := setI32 st.iblk (32 * slot + 8 + 4 * i) kb.1
          let b := decodeI32 iblk1 (32 * slot + 8 + 4 * i)
          let wr := writeBlockBytes (st.d b) j src st.written (length - (st.written : Int)).toNat
          writeDirLoop src length numPtrs nblocks slot fuel (i + 1) 0
            ⟨diskWrite st.d b wr.1, kb.2, iblk1, st.written + wr.2⟩
      else
        let b := decodeI32 st.iblk (32 * slot + 8 + 4 * i)
        let wr := writeBlockBytes (st.d b) j src st.written (length - (st.written : Int)).toNat
        writeDirLoop src length numPtrs nblocks slot fuel (i + 1) 0
          ⟨diskWrite st.d b wr.1, st.bm, st.iblk, st.written + wr.2⟩
    else (st, i, j, true)

/-- The state of the indirect-pointer loop of `fs_write`: disk, block
bitmap, the buffered indirect block, the `indirect_writeback` flag and
the byte count. -/
structure WISt where
  d : Disk
  bm : Bitmap
  ind : Block
  wb : Bool
  written : Nat

/-- The indirect-pointer loop of `fs_write`.  An allocation failure stops
the loop; the caller performs the same writeback-and-finish sequence
either way. -/
def writeIndLoop (src : Int → Nat) (length np2 nblocks : Int) :
    Nat → Int → Int → WISt → WISt
  | 0, _, _, st => st
  | Nat.succ fuel, i, j, st =>
    if i < 1024 ∧ (st.written : Int) < length then
      if np2 ≤ i then
        match alloc_block st.bm nblocks with
        | none => st
        | some kb =>
          let ind1 := setI32 st.ind (4 * i) kb.1
          let b := decodeI32 ind1 (4 * i)
          let wr := writeBlockBytes (st.d b) j src st.written (length - (st.written : Int)).toNat
          writeIndLoop src length np2 nblocks fuel (i + 1) 0
            ⟨diskWrite st.d b wr.1, kb.2, ind1, true, st.written + wr.2⟩
      else
        let b := decodeI32 st.ind (4 * i)
        let wr := writeBlockBytes (st.d b) j src st.written (length - (st.written : Int)).toNat
        writeIndLoop src length np2 nblocks fuel (i + 1) 0
          ⟨diskWrite st.d b wr.1, st.bm, st.ind, st.wb, st.written + wr.2⟩
    else st

/-- The return sequence of `fs_write`: update `inode->size` to
`-min(-size, -(offset + bytes_written))`, write the inode-table block
back, and return the byte count. -/
def writeFinish (s : FSState) (d : Disk) (bm : Bitmap) (iblk : Block)
    (ibn slot offset : Int) (written : Nat) : FSState × Int :=
  let sz := decodeI32 iblk (32 * slot + 4)
  let sz' := -(cmin (-sz) (-(offset + (written : Int))))
  let iblk' := setI32 iblk (32 * slot + 4) sz'
  ({ s with disk := diskWrite d ibn iblk', disk_block_bitmap := bm }, (written : Int))

/-- The indirect phase of `fs_write`, after the direct loop succeeded:
read the indirect block (lazily in the source; its address is whatever
the buffered inode's `indirect` field holds), run the indirect loop, and
finish — writing the indirect block back first when the loop set
`indirect_writeback`. -/
def writeIndPhase (s : FSState) (src : Int → Nat) (length numPtrs nblocks ibn slot offset : Int)
    (d : Disk) (bm : Bitmap) (iblk : Block) (i1 j1 : Int) (written : Nat) : FSState × Int :=
  let indAddr := decodeI32 iblk (32 * slot + 28)
  let st := writeIndLoop src length (numPtrs - 5) nblocks (1024 - (i1 - 5)).toNat (i1 - 5) j1
    ⟨d, bm, d indAddr, false, written⟩
  let d3 := if st.wb then diskWrite st.d indAddr st.ind else st.d
  writeFinish s d3 st.bm iblk ibn slot offset st.written

/-- `fs_write`.  The source never consults `is_mounted` here.  Validates
the inumber against the superblock, the inode's `isvalid`, and
`offset <= size`; writes block by block, allocating past the pre-write
pointer count; allocates a fresh indirect block only when
`size < 5 * 4096` (strictly), otherwise the stale `indirect` field is
trusted; finishes by updating `size` and rewriting the inode block. -/
def fs_write (s : FSState) (src : Int → Nat) (inumber length offset : Int) : FSState × Int :=
  let sb := s.disk 0
  if inumber ≤ 0 ∨ decodeI32 sb 12 ≤ inumber then (s, 0)
  else
    let nblocks := decodeI32 sb 4
    let ibn := Int.tdiv inumber 128 + 1
    let slot := Int.tmod inumber 128
    let iblk0 := s.disk ibn
    if decodeI32 iblk0 (32 * slot) = 0 ∨ decodeI32 iblk0 (32 * slot + 4) < offset then (s, 0)
    else
      let sz0 := decodeI32 iblk0 (32 * slot + 4)
      let numPtrs := (if 0 < Int.tmod sz0 4096 then 1 else 0) + Int.tdiv sz0 4096
      let i0 := Int.tdiv offset 4096
      let j0 := Int.tmod offset 4096
      let dres := writeDirLoop src length numPtrs nblocks slot (5 - i0).toNat i0 j0
        ⟨s.disk, s.disk_block_bitmap, iblk0, 0⟩
      let st1 := dres.1
      if dres.2.2.2 = false then
        writeFinish s st1.d st1.bm st1.iblk ibn slot offset st1.written
      else if decodeI32 st1.iblk (32 * slot + 4) < 20480 ∧ (st1.written : Int) < length then
        match alloc_block st1.bm nblocks with
        | none => writeFinish s st1.d st1.bm st1.iblk ibn slot offset st1.written
        | some kb =>
          let iblk1 := setI32 st1.iblk (32 * slot + 28) kb.1
          writeIndPhase s src length numPtrs nblocks ibn slot offset st1.d kb.2 iblk1
            dres.2.1 dres.2.2.1 st1.written
      else
        writeIndPhase s src length numPtrs nblocks ibn slot offset st1.d st1.bm st1.iblk
          dres.2.1 dres.2.2.1 st1.written

/-- Update one block of an in-memory block array (the defragmenter's
mirror images). -/
def tblSet (t : Int → Block) (idx : Int) (blk : Block) : Int → Block :=
  fun i => if i = idx then blk else t i

/-- Copy one 32-byte inode record from slot `sslot` of `src` into slot
`dslot` of `dst` (the struct assignment in `fs_defrag`). -/
def copyInode (dst : Block) (dslot : Int) (src : Block) (sslot : Int) : Block :=
  fun o => if 32 * dslot ≤ o ∧ o < 32 * dslot + 32
    then src (32 * sslot + (o - 32 * dslot)) else dst o

/-- The defragmenter's scan cursor: next inode number, next data index,
and the two in-memory images. -/
structure DSt where
  dinum : Int
  ddi : Int
  table : Int → Block
  data : Int → Block

/-- Relocation of one live inode by `fs_defrag`: copy its record into the
image at slot `dinum`, move each direct block to the data image rewriting
the image's pointer to `ddi + 1 + ninodeblocks`, then, if indirect blocks
exist, relocate each pointed block the same way and finally the rewritten
indirect block itself. -/
def defragInode (d : Disk) (nib : Int) (srcblk : Block) (slot : Int) (st : DSt) : DSt :=
  let doff := Int.tmod st.dinum 128
  let dbi := Int.tdiv st.dinum 128
  let t1 := tblSet st.table dbi (copyInode (st.table dbi) doff srcblk slot)
  let nb := Int.tdiv (decodeI32 srcblk (32 * slot + 4) + 4095) 4096
  let dirN := if nb ≤ 5 then nb else 5
  let indN := if nb ≤ 5 then 0 else nb - 5
  let q1 := (List.range dirN.toNat).foldl
    (fun (q : (Int → Block) × (Int → Block) × Int) (k : Nat) =>
      let bn := decodeI32 srcblk (32 * slot + 8 + 4 * (k : Int))
      let dq := tblSet q.2.1 q.2.2 (d bn)
      let tq := tblSet q.1 dbi (setI32 (q.1 dbi) (32 * doff + 8 + 4 * (k : Int)) (q.2.2 + 1 + nib))
      (tq, dq, q.2.2 + 1)) (t1, st.data, st.ddi)
  if 0 < indN then
    let q2 := (List.range indN.toNat).foldl
      (fun (q : Block × (Int → Block) × Int) (k : Nat) =>
        let bn := decodeI32 q.1 (4 * (k : Int))
        let dq := tblSet q.2.1 q.2.2 (d bn)
        let ib := setI32 q.1 (4 * (k : Int)) (q.2.2 + 1 + nib)
        (ib, dq, q.2.2 + 1)) (d (decodeI32 srcblk (32 * slot + 28)), q1.2.1, q1.2.2)
    let data' := tblSet q2.2.1 q2.2.2 q2.1
    let t' := tblSet q1.1 dbi (setI32 (q1.1 dbi) (32 * doff + 28) (q2.2.2 + 1 + nib))
    { dinum := st.dinum + 1, ddi := q2.2.2 + 1, table := t', data := data' }
  else
    { dinum := st.dinum + 1, ddi := q1.2.2, table := q1.1, data := q1.2.1 }

/-- `fs_defrag`.  The source never consults `is_mounted`.  `junk` models
the uninitialized `malloc`ed data image.  Scans the inode table in
(block, slot) order past inode 0, relocating every inode whose bit in
`inode_table_bitmap` is clear; rebuilds both bitmaps (the block-bitmap
free loop stops at `nblocks - ninodeblocks - 1`, as written in the
source); writes the inode-table image and then the whole data image back
to disk. -/
def fs_defrag (junk : Int → Block) (s : FSState) : FSState × Int :=
  let sb := s.disk 0
  let nib := decodeI32 sb 8
  let ninodes := decodeI32 sb 12
  let nblocks := decodeI32 sb 4
  let fin := (List.range (128 * nib).toNat).foldl
    (fun (st : DSt) (inumN : Nat) =>
      let inum : Int := (inumN : Int)
      if inum = 0 then st
      else if s.inode_table_bitmap inum = false then
        defragInode s.disk nib (s.disk (Int.tdiv inum 128 + 1)) (Int.tmod inum 128) st
      else st)
    { dinum := 1, ddi := 0, table := fun _ => zeroBlock, data := junk }
  let ibm1 := (List.range (fin.dinum - 1).toNat).foldl
    (fun bm (t : Nat) => bmSet bm (1 + (t : Int)) false) s.inode_table_bitmap
  let ibm2 := (List.range (ninodes - fin.dinum).toNat).foldl
    (fun bm (t : Nat) => bmSet bm (fin.dinum + (t : Int)) true) ibm1
  let d1 := (List.range nib.toNat).foldl
    (fun d (i : Nat) => diskWrite d ((i : Int) + 1) (fin.table (i : Int))) s.disk
  let bbm1 := (List.range (fin.ddi + 1 + nib).toNat).foldl
    (fun bm (i : Nat) => bmSet bm (i : Int) false) s.disk_block_bitmap
  let bbm2 := (List.range ((nblocks - nib - 1) - (fin.ddi + 1 + nib)).toNat).foldl
    (fun bm (t : Nat) => bmSet bm (fin.ddi + 1 + nib + (t : Int)) true) bbm1
  let d2 := (List.range (nblocks - nib - 1).toNat).foldl
    (fun d (i : Nat) => diskWrite d ((i : Int) + 1 + nib) (fin.data (i : Int))) d1
  ({ s with disk := d2, inode_table_bitmap := ibm2, disk_block_bitmap := bbm2 }, 1)

/-! Concrete disk images and mount states used to evaluate the
operations at specific inputs.  A 30-block disk has `ninodeblocks = 3`
(blocks 1..3 hold 384 inode slots) and data region 4..29. -/

/-- Superblock of a formatted 30-block disk. -/
def sb30 : Block :=
  setI32 (setI32 (setI32 (setU32 zeroBlock 0 0xf0f03410) 4 30) 8 3) 12 384

/-- All-false bitmap (used where the bitmap contents are irrelevant). -/
def bmAll0 : Bitmap := fun _ => false

/-- Inode-table block: inode 1 live with `size = 7` (all other slots
invalid). -/
def it3 : Block := setI32 (setI32 zeroBlock 32 1) 36 7

/-- Mounted state whose inode 1 is live with size 7; block 0 holds only
the superblock (its remaining bytes are zero). -/
def s3 : FSState :=
  ⟨30, fun b => if b = 0 then sb30 else if b = 1 then it3 else zeroBlock,
    bmAll0, bmAll0, true⟩

/-- Inode-table block: inode 1 live, `size = 4096`, `direct[0] = 4`. -/
def it2 : Block := setI32 (setI32 (setI32 zeroBlock 32 1) 36 4096) 40 4

/-- An UNMOUNTED state over a disk holding a live inode 1 backed by data
block 4 (whose bytes are all zero). -/
def s2 : FSState :=
  ⟨30, fun b => if b = 0 then sb30 else if b = 1 then it2 else zeroBlock,
    bmAll0, bmAll0, false⟩

/-- A constant input buffer. -/
def src42 : Int → Nat := fun _ => 42

/-- Inode-table block: inode 1 live, `size = 20480` (exactly the direct
capacity), `direct = [4,5,6,7,8]`, and a stale `indirect` field equal to
6 — `fs_create` writes its uninitialized stack copy of `indirect` to
disk, so after writing 20480 bytes the field can hold any value,
including one of the file's own direct blocks. -/
def it1 : Block :=
  setI32 (setI32 (setI32 (setI32 (setI32 (setI32 (setI32 (setI32 zeroBlock
    32 1) 36 20480) 40 4) 44 5) 48 6) 52 7) 56 8) 60 6

/-- Mounted state for the boundary-write experiment: blocks 0..8 in use,
9..29 free. -/
def s1 : FSState :=
  ⟨30, fun b => if b = 0 then sb30 else if b = 1 then it1 else zeroBlock,
    fun i => if i = 0 ∨ i = 1 then false else true,
    fun i => if 9 ≤ i ∧ i < 30 then true else false, true⟩

/-- A constant input buffer. -/
def src99 : Int → Nat := fun _ => 99

/-- A junk assignment (for `fs_read` runs that never reach the
uninitialized pointers). -/
def junk0 : Int → Int := fun _ => 0

/-- Superblock of a 3000-block disk (`ninodeblocks = 300`,
`ninodes = 38400`). -/
def sb3000 : Block :=
  setI32 (setI32 (setI32 (setU32 zeroBlock 0 0xf0f03410) 4 3000) 8 300) 12 38400

/-- Inode-table block: inode 1 live with `size = 261 * 4096 + 1` and
`indirect = 9`.  Logical block 261 is indirect pointer index 256 — the
first one past the 1024 bytes `fs_read` copies. -/
def it4 : Block := setI32 (setI32 (setI32 zeroBlock 32 1) 36 1069057) 60 9

/-- Indirect block whose pointer `k` is `10 + k` (so pointer 256 is
block 266), written out little-endian byte by byte. -/
def ptr9 : Block :=
  fun o => if 0 ≤ o then (10 + o.toNat / 4) / 256 ^ (o.toNat % 4) % 256 else 0

/-- A data block holding the byte 7 everywhere. -/
def blk7 : Block := fun _ => 7

/-- Mounted state with a file large enough to reach indirect pointer
index 256; the true pointer there is 266 and block 266 holds sevens. -/
def s4 : FSState :=
  ⟨3000, fun b => if b = 0 then sb3000 else if b = 1 then it4
    else if b = 9 then ptr9 else if b = 266 then blk7 else zeroBlock,
    bmAll0, bmAll0, true⟩

/-- One value of the uninitialized pointer tail: every junk pointer is
5000 (a zero block). -/
def junkA : Int → Int := fun _ => 5000

/-- Another value of the uninitialized pointer tail: every junk pointer
is 266 (the block the true pointer names). -/
def junkB : Int → Int := fun _ => 266

/-- Inode-table block: inode 1 live, `size = 20481` (one byte into the
indirect range), `direct = [11,12,13,14,15]`, `indirect = 16`. -/
def it6 : Block :=
  setI32 (setI32 (setI32 (setI32 (setI32 (setI32 (setI32 (setI32 zeroBlock
    32 1) 36 20481) 40 11) 44 12) 48 13) 52 14) 56 15) 60 16

/-- Indirect block 16: pointer 0 is block 17. -/
def ind6 : Block := setI32 zeroBlock 0 17

/-- The disk image with a live inode that uses an indirect block. -/
def disk6 : Disk :=
  fun b => if b = 0 then sb30 else if b = 1 then it6 else if b = 16 then ind6 else zeroBlock

/-- The unmounted state over `disk6`, as `fs_mount` receives it. -/
def s6 : FSState := ⟨30, disk6, bmAll0, bmAll0, false⟩

/-- The mounted state over `disk6` with consistent bitmaps: blocks 0..3
(superblock + table) and 11..17 (the file's blocks and its indirect
block) in use. -/
def sDel : FSState :=
  ⟨30, disk6, fun i => if i = 0 ∨ i = 1 then false else true,
    fun i => if (0 ≤ i ∧ i < 4) ∨ (11 ≤ i ∧ i ≤ 17) then false else true, true⟩

/-- Inode-table block: slot 2 live, `size = 4096`, `direct[0] = 27`. -/
def it7 : Block := setI32 (setI32 (setI32 zeroBlock 64 1) 68 4096) 72 27

/-- A data block holding the byte 3 everywhere. -/
def blk3 : Block := fun _ => 3

/-- Mounted state for the defrag experiment: live inode 2 owns data
block 27 (near the top of the 30-block disk), block 9 is a leaked block
(marked used, owned by no inode), everything else in the data region is
free. -/
def sD : FSState :=
  ⟨30, fun b => if b = 0 then sb30 else if b = 1 then it7 else if b = 27 then blk3 else zeroBlock,
    fun i => if i = 0 ∨ i = 2 then false else true,
    fun i => if (0 ≤ i ∧ i < 4) ∨ i = 9 ∨ i = 27 then false else true, true⟩

/-- A zero-filled value for the defragmenter's uninitialized data image. -/
def junkB0 : Int → Block := fun _ => zeroBlock

/-- An unmounted state over a 25-block disk of zeros. -/
def s8 : FSState := ⟨25, fun _ => zeroBlock, bmAll0, bmAll0, false⟩

/-! Lemmas about the byte codec. -/

/-- A disk whose cells all hold byte values. -/
def WFBytes (d : Disk) : Prop := ∀ b o, d b o < 256

theorem setByte_at (blk : Block) (off : Int) (v : Nat) : setByte blk off v off = v := by
  simp [setByte]

theorem setByte_ne (blk : Block) (off o : Int) (v : Nat) (h : o ≠ off) :
    setByte blk off v o = blk o := by
  simp [setByte, h]

theorem setByte_self (blk : Block) (off : Int) : setByte blk off (blk off) = blk := by
  funext o
  by_cases h : o = off
  · subst h; simp [setByte]
  · simp [setByte, h]

theorem setU32_apply_ne (blk : Block) (off o : Int) (v : Nat)
    (h : o < off ∨ off + 3 < o) : setU32 blk off v o = blk o := by
  unfold setU32
  rw [setByte_ne _ _ _ _ (by omega), setByte_ne _ _ _ _ (by omega),
    setByte_ne _ _ _ _ (by omega), setByte_ne _ _ _ _ (by omega)]

theorem decodeU32_setU32_other (blk : Block) (off off' : Int) (v : Nat)
    (h : off + 4 ≤ off' ∨ off' + 4 ≤ off) :
    decodeU32 (setU32 blk off' v) off = decodeU32 blk off := by
  unfold decodeU32
  rw [setU32_apply_ne _ _ _ _ (by omega), setU32_apply_ne _ _ _ _ (by omega),
    setU32_apply_ne _ _ _ _ (by omega), setU32_apply_ne _ _ _ _ (by omega)]

theorem decodeI32_setI32_other (blk : Block) (off off' : Int) (v : Int)
    (h : off + 4 ≤ off' ∨ off' + 4 ≤ off) :
    decodeI32 (setI32 blk off' v) off = decodeI32 blk off := by
  unfold decodeI32 setI32
  rw [decodeU32_setU32_other _ _ _ _ h]

theorem decodeU32_setU32_same (blk : Block) (off : Int) (v : Nat) :
    decodeU32 (setU32 blk off v) off = v % 4294967296 := by
  have e3 : setU32 blk off v (off + 3) = v / 16777216 % 256 := by
    unfold setU32; rw [setByte_at]
  have e2 : setU32 blk off v (off + 2) = v / 65536 % 256 := by
    unfold setU32; rw [setByte_ne _ _ _ _ (by omega), setByte_at]
  have e1 : setU32 blk off v (off + 1) = v / 256 % 256 := by
    unfold setU32
    rw [setByte_ne _ _ _ _ (by omega), setByte_ne _ _ _ _ (by omega), setByte_at]
  have e0 : setU32 blk off v off = v % 256 := by
    unfold setU32
    rw [setByte_ne _ _ _ _ (by omega), setByte_ne _ _ _ _ (by omega),
      setByte_ne _ _ _ _ (by omega), setByte_at]
  unfold decodeU32
  rw [e0, e1, e2, e3]
  omega

theorem decodeI32_setI32_same (blk : Block) (off : Int) (v : Int)
    (h1 : -2147483648 ≤ v) (h2 : v < 2147483648) :
    decodeI32 (setI32 blk off v) off = v := by
  unfold decodeI32 setI32 encodeI32 toSigned
  rw [decodeU32_setU32_same]
  omega

theorem decodeU32_lt (blk : Block) (off : Int) : decodeU32 blk off < 4294967296 := by
  unfold decodeU32
  omega

theorem setI32_decode_self (blk : Block) (off : Int) (h : ∀ o, blk o < 256) :
    setI32 blk off (decodeI32 blk off) = blk := by
  have henc : encodeI32 (decodeI32 blk off) = decodeU32 blk off := by
    unfold encodeI32 decodeI32 toSigned
    have := decodeU32_lt blk off
    omega
  unfold setI32
  rw [henc]
  have h0 : decodeU32 blk off % 256 = blk off := by
    unfold decodeU32
    have := h off
    omega
  have h1 : decodeU32 blk off / 256 % 256 = blk (off + 1) := by
    unfold decodeU32
    have := h off
    have := h (off + 1)
    omega
  have h2 : decodeU32 blk off / 65536 % 256 = blk (off + 2) := by
    unfold decodeU32
    have := h off
    have := h (off + 1)
    have := h (off + 2)
    omega
  have h3 : decodeU32 blk off / 16777216 % 256 = blk (off + 3) := by
    unfold decodeU32
    have := h off
    have := h (off + 1)
    have := h (off + 2)
    have := h (off + 3)
    omega
  unfold setU32
  rw [h0, h1, h2, h3, setByte_self, setByte_self, setByte_self, setByte_self]

theorem diskWrite_same (d : Disk) (bn : Int) (blk : Block) : diskWrite d bn blk bn = blk := by
  simp [diskWrite]

theorem diskWrite_ne (d : Disk) (bn b : Int) (blk : Block) (h : b ≠ bn) :
    diskWrite d bn blk b = d b := by
  simp [diskWrite, h]

theorem diskWrite_self (d : Disk) (bn : Int) : diskWrite d bn (d bn) = d := by
  funext b
  by_cases h : b = bn
  · subst h; simp [diskWrite]
  · simp [diskWrite, h]

/-! Lemmas about bitmap update folds. -/

theorem bmSet_at (bm : Bitmap) (idx : Int) (v : Bool) : bmSet bm idx v idx = v := by
  simp [bmSet]

theorem bmSet_ne (bm : Bitmap) (idx i : Int) (v : Bool) (h : i ≠ idx) :
    bmSet bm idx v i = bm i := by
  simp [bmSet, h]

theorem bm_foldl_const_keep (L : List Int) (bm : Bitmap) (v : Bool) (b : Int)
    (h : bm b = v) : (L.foldl (fun m x => bmSet m x v) bm) b = v := by
  induction L generalizing bm with
  | nil => exact h
  | cons a L ih =>
    refine ih (bmSet bm a v) ?_
    by_cases hb : b = a
    · subst hb; exact bmSet_at bm b v
    · rw [bmSet_ne _ _ _ _ hb]; exact h

theorem bm_foldl_const_mem (L : List Int) (bm : Bitmap) (v : Bool) (b : Int)
    (h : b ∈ L) : (L.foldl (fun m x => bmSet m x v) bm) b = v := by
  induction L generalizing bm with
  | nil => cases h
  | cons a L ih =>
    rcases List.mem_cons.mp h with h' | h'
    · subst h'
      exact bm_foldl_const_keep L (bmSet bm b v) v b (bmSet_at bm b v)
    · exact ih (bmSet bm a v) h'

theorem bm_foldl_const_not_mem (L : List Int) (bm : Bitmap) (v : Bool) (b : Int)
    (h : b ∉ L) : (L.foldl (fun m x => bmSet m x v) bm) b = bm b := by
  induction L generalizing bm with
  | nil => rfl
  | cons a L ih =>
    have hb : b ≠ a := fun hba => h (by rw [hba]; exact List.mem_cons_self a L)
    rw [List.foldl_cons, ih (bmSet bm a v) (fun hbL => h (List.mem_cons_of_mem a hbL)),
      bmSet_ne _ _ _ _ hb]

/-! Lemmas about `fs_format`'s inode-table pass. -/

theorem zeroIsvalids_decode_aux (blk : Block) (m k : Nat) (hk : k < m) (hm : m ≤ 128) :
    decodeI32 ((List.range m).foldl (fun b (j : Nat) => setI32 b (32 * (j : Int)) 0) blk)
      (32 * (k : Int)) = 0 := by
  induction m with
  | zero => omega
  | succ n ih =>
    rw [List.range_succ, List.foldl_append, List.foldl_cons, List.foldl_nil]
    by_cases h : k = n
    · subst h
      exact decodeI32_setI32_same _ _ _ (by omega) (by omega)
    · rw [decodeI32_setI32_other _ _ _ _ (by left; omega)]
      exact ih (by omega) (by omega)

theorem zeroIsvalids_decode (blk : Block) (k : Nat) (hk : k < 128) :
    decodeI32 (zeroIsvalids blk) (32 * (k : Int)) = 0 :=
  zeroIsvalids_decode_aux blk 128 k hk (le_refl 128)

theorem format_fold_at0 (n : Nat) (d : Disk) :
    ((List.range n).foldl
      (fun d (b : Nat) => diskWrite d ((b : Int) + 1) (zeroIsvalids (d ((b : Int) + 1)))) d) 0 = d 0 := by
  induction n with
  | zero => rfl
  | succ m ih =>
    rw [List.range_succ, List.foldl_append, List.foldl_cons, List.foldl_nil,
      diskWrite_ne _ _ _ _ (by omega)]
    exact ih

theorem format_fold_tbl (n : Nat) (d : Disk) (b : Nat) (hb : b < n) :
    ∃ blk, ((List.range n).foldl
      (fun d (j : Nat) => diskWrite d ((j : Int) + 1) (zeroIsvalids (d ((j : Int) + 1)))) d)
        ((b : Int) + 1) = zeroIsvalids blk := by
  induction n with
  | zero => omega
  | succ m ih =>
    rw [List.range_succ, List.foldl_append, List.foldl_cons, List.foldl_nil]
    by_cases h : b = m
    · subst h
      rw [diskWrite_same]
      exact ⟨_, rfl⟩
    · rw [diskWrite_ne _ _ _ _ (by omega)]
      exact ih (by omega)

/-! Byte-bound (well-formedness) lemmas, used to exhibit a concrete
well-formed state. -/

theorem zeroBlock_lt : ∀ o, zeroBlock o < 256 := by
  intro o
  simp [zeroBlock]

theorem setByte_lt (blk : Block) (off : Int) (v : Nat)
    (h : ∀ o, blk o < 256) (hv : v < 256) : ∀ o, setByte blk off v o < 256 := by
  intro o
  unfold setByte
  by_cases ho : o = off <;> simp [ho, hv, h o]

theorem setU32_lt (blk : Block) (off : Int) (v : Nat)
    (h : ∀ o, blk o < 256) : ∀ o, setU32 blk off v o < 256 := by
  unfold setU32
  exact setByte_lt _ _ _ (setByte_lt _ _ _ (setByte_lt _ _ _ (setByte_lt _ _ _ h
    (Nat.mod_lt _ (by omega))) (Nat.mod_lt _ (by omega))) (Nat.mod_lt _ (by omega)))
    (Nat.mod_lt _ (by omega))

theorem setI32_lt (blk : Block) (off : Int) (v : Int)
    (h : ∀ o, blk o < 256) : ∀ o, setI32 blk off v o < 256 :=
  setU32_lt blk off (encodeI32 v) h

/-- Every byte of the concrete state `s3`'s disk is a byte value. -/
theorem s3_wf : WFBytes s3.disk := by
  intro b o
  show (if b = 0 then sb30 else if b = 1 then it3 else zeroBlock) o < 256
  by_cases h0 : b = 0
  · simp only [h0, if_pos rfl]
    exact setI32_lt _ _ _ (setI32_lt _ _ _ (setI32_lt _ _ _ (setU32_lt _ _ _ zeroBlock_lt))) o
  · by_cases h1 : b = 1
    · simp only [h0, h1, if_neg, if_pos rfl, ite_false]
      exact setI32_lt _ _ _ (setI32_lt _ _ _ zeroBlock_lt) o
    · simp only [h0, h1, ite_false]
      exact zeroBlock_lt o

/-! Lemmas about `fs_write`'s loops when there is nothing to write. -/

theorem writeDirLoop_done (src : Int → Nat) (length numPtrs nblocks slot : Int)
    (fuel : Nat) (i j : Int) (st : WSt) (h : length ≤ (st.written : Int)) :
    writeDirLoop src length numPtrs nblocks slot fuel i j st = (st, i, j, true) := by
  cases fuel with
  | zero => rfl
  | succ n =>
    unfold writeDirLoop
    rw [if_neg (fun hc => absurd hc.2 (not_lt.mpr h))]

theorem writeIndLoop_done (src : Int → Nat) (length np2 nblocks : Int)
    (fuel : Nat) (i j : Int) (st : WISt) (h : length ≤ (st.written : Int)) :
    writeIndLoop src length np2 nblocks fuel i j st = st := by
  cases fuel with
  | zero => rfl
  | succ n =>
    unfold writeIndLoop
    rw [if_neg (fun hc => absurd hc.2 (not_lt.mpr h))]

/-! The claims. -/

set_option maxRecDepth 100000

/-- Claim C1 (write/read round-trip), failing run.  In the mounted state
`s1`, inode 1 is live with `size = 20480` exactly (five direct blocks
4..8) and a stale on-disk `indirect` field equal to 6 = `direct[2]`.
Writing one byte at offset 20480 returns 1 and the byte reads back, but
because `fs_write` allocates a fresh indirect block only when
`size < 20480` strictly, it treats block 6 as the indirect pointer block
and rewrites it: byte 8192 of the file (block `direct[2]`, offset 0) —
far outside the written range `[20480, 20481)` — changes from 0 to 9. -/
theorem C1_boundary_write_corrupts :
    (fs_write s1 src99 1 1 20480).2 = 1
    ∧ (fs_read (fs_write s1 src99 1 1 20480).1 junk0 1 1 20480).2.2 = [99]
    ∧ (fs_read s1 junk0 1 1 8192).2.2 = [0]
    ∧ (fs_read (fs_write s1 src99 1 1 20480).1 junk0 1 1 8192).2.2 = [9] := by
  refine ⟨by decide, by decide, by decide, by decide⟩

/-- Claim C2 (mount gating), failing run.  `fs_write` never tests
`is_mounted`: in the unmounted state `s2` whose disk holds a live inode 1
(size 4096, data block 4), writing one byte returns 1 — not 0 — and
changes the disk image.  (`fs_delete`, `fs_getsize`, `fs_read` do gate;
`fs_defrag` does not test the flag either.) -/
theorem C2_write_ignores_mount :
    s2.is_mounted = false
    ∧ (fs_write s2 src42 1 1 0).2 = 1
    ∧ s2.disk 4 0 = 0
    ∧ (fs_write s2 src42 1 1 0).1.disk 4 0 = 42 := by
  refine ⟨rfl, by decide, by decide, by decide⟩

/-- Claim C3 (getsize contract), failing run.  In the mounted state `s3`
the on-disk inode 1 is live (`isvalid = 1`) with `size = 7`, yet
`fs_getsize` returns −1: it decodes the inode from block 0 — the
superblock buffer — instead of reading the inode-table block. -/
theorem C3_getsize_reads_wrong_block :
    s3.is_mounted = true
    ∧ decodeI32 (s3.disk 1) 32 = 1
    ∧ decodeI32 (s3.disk 1) 36 = 7
    ∧ fs_getsize s3 1 = -1 := by
  refine ⟨rfl, by decide, by decide, by decide⟩

/-- Claim C4 (read contract), failing run.  In the mounted state `s4`
inode 1 is live with `size = 261 * 4096 + 1`; its indirect block 9 holds
pointer 256 = block 266, whose bytes are all 7.  Reading one byte at
offset `261 * 4096` must yield the file's byte 7, but `fs_read` copies
only 1024 bytes (256 of the 1024 pointers) of the indirect block into
its local array, so the pointer it uses is the uninitialized value: with
junk pointer 5000 the call returns byte 0, with junk pointer 266 it
returns byte 7 — the result depends on uninitialized memory, not only on
the file. -/
theorem C4_read_uses_uninitialized_pointer :
    decodeI32 (s4.disk 9) 1024 = 266
    ∧ s4.disk 266 0 = 7
    ∧ (fs_read s4 junkA 1 1 1069056).2.2 = [0]
    ∧ (fs_read s4 junkB 1 1 1069056).2.2 = [7] := by
  refine ⟨by decide, by decide, by decide, by decide⟩

/-- Claim C5 (delete contract), counterexample.  In the mounted state
`sDel`, inode 1 is live with `size = 20481 > 20480`, so its indirect
block (block 16) is in use.  `fs_delete` returns 1 and frees the walked
data blocks (11..15 and 17), but the claim's "also sets the indirect
block's own bit to 1" is false: bit 16 is still 0 afterwards. -/
theorem C5_delete_keeps_indirect_bit :
    decodeI32 (sDel.disk 1) 36 = 20481
    ∧ (fs_delete sDel 1).2 = 1
    ∧ (fs_delete sDel 1).1.disk_block_bitmap 17 = true
    ∧ (fs_delete sDel 1).1.disk_block_bitmap 11 = true
    ∧ (fs_delete sDel 1).1.disk_block_bitmap 16 = false := by
  refine ⟨by decide, by decide, by decide, by decide, by decide⟩

/-- Claim C6 (block-bitmap invariant), failing run.  Mounting the disk
`disk6`, whose live inode 1 has `size = 20481` with indirect block 16,
succeeds and clears the bits of the walked data blocks (11..15, 17), but
leaves bit 16 — the indirect block itself — set (free): the source
compares each yielded block NUMBER with 5 instead of the yield index, so
on a well-formed image (where no data block is numbered 5) the indirect
block's bit is never cleared. -/
theorem C6_mount_keeps_indirect_free :
    (fs_mount s6).2 = 1
    ∧ decodeI32 (s6.disk 1) 36 = 20481
    ∧ decodeI32 (s6.disk 1) 60 = 16
    ∧ (fs_mount s6).1.disk_block_bitmap 11 = false
    ∧ (fs_mount s6).1.disk_block_bitmap 17 = false
    ∧ (fs_mount s6).1.disk_block_bitmap 16 = true := by
  refine ⟨by decide, by decide, by decide, by decide, by decide, by decide⟩

/-- Claim C7 (defrag postcondition), failing run.  In the mounted state
`sD` (30-block disk, `ninodeblocks = 3`), the only live inode owns data
block 27 and block 9 is a stale used bit.  After `fs_defrag` the live
inode is number 1 with its block relocated to 4 (the data-region
prefix), and bit 9 is reclaimed — but the free loop stops at index
`nblocks - ninodeblocks - 1 = 26`, so bit 27 stays 0 (used) even though
no inode uses block 27 any more: the used blocks are not exactly the
prefix `[4, 5)` with all others free. -/
theorem C7_defrag_stale_used_bit :
    (fs_defrag junkB0 sD).2 = 1
    ∧ decodeI32 ((fs_defrag junkB0 sD).1.disk 1) 32 = 1
    ∧ decodeI32 ((fs_defrag junkB0 sD).1.disk 1) 36 = 4096
    ∧ decodeI32 ((fs_defrag junkB0 sD).1.disk 1) 40 = 4
    ∧ (fs_defrag junkB0 sD).1.disk 4 0 = 3
    ∧ (fs_defrag junkB0 sD).1.disk_block_bitmap 4 = false
    ∧ (fs_defrag junkB0 sD).1.disk_block_bitmap 5 = true
    ∧ (fs_defrag junkB0 sD).1.disk_block_bitmap 9 = true
    ∧ (fs_defrag junkB0 sD).1.disk_block_bitmap 27 = false := by
  refine ⟨by decide, by decide, by decide, by decide, by decide, by decide, by decide,
    by decide, by decide⟩

/-- Claim C8 (format superblock arithmetic), counterexample.  Formatting
an unmounted 25-block disk writes `ninodeblocks = 2` — the C integer
division `25 / 10` — whereas the claim's `ceil(25 / 10)` is 3. -/
theorem C8_format_floor_not_ceil :
    decodeI32 ((fs_format s8).1.disk 0) 8 = 2
    ∧ (((25 + 9) / 10 : Nat) : Int) = 3
    ∧ decodeI32 ((fs_format s8).1.disk 0) 8 ≠ (((25 + 9) / 10 : Nat) : Int) := by
  refine ⟨by decide, by decide, by decide⟩

/-- Claim C9: `fs_read` is a pure reader — it issues no `disk_write` and
touches neither bitmap nor the mount flag, so the state it returns is the
state it was given, for every state and all arguments (only the returned
byte list is produced for the caller's buffer). -/
theorem C9_read_pure (s : FSState) (junk : Int → Int) (inumber length offset : Int) :
    (fs_read s junk inumber length offset).1 = s := by
  simp only [fs_read]
  repeat' split
  all_goals rfl

/-- Claim C5 (delete contract), amended: for every mounted state and
every `i` with `1 ≤ i < ninodes` whose inode has a nonzero `isvalid`
field, `fs_delete i` clears `isvalid` on disk, sets `block_free = 1` for
every data block yielded by the inode's data walker and touches no other
`block_free` bit — in particular it does NOT set the indirect block's own
bit — sets `inode_free[i] = 1`, and returns 1. -/
theorem C5_delete_amended (s : FSState) (i : Int)
    (hm : s.is_mounted = true)
    (h1 : 1 ≤ i)
    (h2 : i < decodeI32 (s.disk 0) 12)
    (hv : decodeI32 (s.disk (1 + Int.tdiv i 128)) (32 * Int.tmod i 128) ≠ 0) :
    (fs_delete s i).2 = 1
    ∧ decodeI32 ((fs_delete s i).1.disk (1 + Int.tdiv i 128)) (32 * Int.tmod i 128) = 0
    ∧ (∀ b ∈ walkPos (diskWrite s.disk (1 + Int.tdiv i 128)
          (setI32 (s.disk (1 + Int.tdiv i 128)) (32 * Int.tmod i 128) 0))
          (inodeAt (setI32 (s.disk (1 + Int.tdiv i 128)) (32 * Int.tmod i 128) 0)
            (Int.tmod i 128)),
        (fs_delete s i).1.disk_block_bitmap b = true)
    ∧ (∀ b, b ∉ walkPos (diskWrite s.disk (1 + Int.tdiv i 128)
          (setI32 (s.disk (1 + Int.tdiv i 128)) (32 * Int.tmod i 128) 0))
          (inodeAt (setI32 (s.disk (1 + Int.tdiv i 128)) (32 * Int.tmod i 128) 0)
            (Int.tmod i 128)) →
        (fs_delete s i).1.disk_block_bitmap b = s.disk_block_bitmap b)
    ∧ (fs_delete s i).1.inode_table_bitmap i = true := by
  have g2 : ¬(i < 1 ∨ decodeI32 (s.disk 0) 12 ≤ i) := by omega
  simp only [fs_delete, hm, Bool.true_eq_false, if_false, g2, hv, ite_false]
  refine ⟨trivial, ?_, ?_, ?_, ?_⟩
  · rw [diskWrite_same]
    exact decodeI32_setI32_same _ _ _ (by omega) (by omega)
  · intro b hb
    exact bm_foldl_const_mem _ _ _ _ hb
  · intro b hb
    exact bm_foldl_const_not_mem _ _ _ _ hb
  · exact bmSet_at _ _ _

/-- Claim C5, witness: the amended theorem applied at the concrete state
`sDel` and inode 1, every hypothesis discharged there. -/
theorem C5_delete_amended_witness :
    sDel.is_mounted = true
    ∧ (1 : Int) ≤ 1
    ∧ (1 : Int) < decodeI32 (sDel.disk 0) 12
    ∧ decodeI32 (sDel.disk (1 + Int.tdiv 1 128)) (32 * Int.tmod 1 128) ≠ 0
    ∧ (fs_delete sDel 1).2 = 1 :=
  ⟨rfl, by decide, by decide, by decide,
    (C5_delete_amended sDel 1 rfl (by decide) (by decide) (by decide)).1⟩

/-- Claim C8 (format superblock arithmetic), amended: for every
unmounted state (with a realistically sized disk, below 2^24 blocks),
`fs_format` returns 1 and writes a superblock with
`magic = 0xF0F03410`, `nblocks` equal to the disk's block count,
`ninodeblocks = nblocks / 10` rounded DOWN (C integer division, not
ceiling), and `ninodes = ninodeblocks * 128`, then sets `isvalid = 0` on
every slot of every inode-table block. -/
theorem C8_format_amended (s : FSState)
    (hm : s.is_mounted = false)
    (hb : s.nblocksDisk < 16777216) :
    (fs_format s).2 = 1
    ∧ decodeU32 ((fs_format s).1.disk 0) 0 = 0xf0f03410
    ∧ decodeI32 ((fs_format s).1.disk 0) 4 = (s.nblocksDisk : Int)
    ∧ decodeI32 ((fs_format s).1.disk 0) 8 = Int.tdiv (s.nblocksDisk : Int) 10
    ∧ decodeI32 ((fs_format s).1.disk 0) 12 = Int.tdiv (s.nblocksDisk : Int) 10 * 128
    ∧ ∀ b k : Nat, b < (Int.tdiv (s.nblocksDisk : Int) 10).toNat → k < 128 →
        decodeI32 ((fs_format s).1.disk ((b : Int) + 1)) (32 * (k : Int)) = 0 := by
  have hdiv : Int.tdiv (s.nblocksDisk : Int) 10 = ((s.nblocksDisk / 10 : Nat) : Int) := by
    rw [Int.tdiv_eq_ediv (Int.ofNat_nonneg _) (by omega)]
    norm_cast
  simp only [fs_format, hm, Bool.false_eq_true, if_false]
  refine ⟨trivial, ?_, ?_, ?_, ?_, ?_⟩
  · rw [format_fold_at0, diskWrite_same]
    unfold setI32
    rw [decodeU32_setU32_other _ 0 12 _ (by omega),
      decodeU32_setU32_other _ 0 8 _ (by omega),
      decodeU32_setU32_other _ 0 4 _ (by omega),
      decodeU32_setU32_same]
  · rw [format_fold_at0, diskWrite_same,
      decodeI32_setI32_other _ 4 12 _ (by omega),
      decodeI32_setI32_other _ 4 8 _ (by omega)]
    exact decodeI32_setI32_same _ _ _ (by omega) (by omega)
  · rw [format_fold_at0, diskWrite_same,
      decodeI32_setI32_other _ 8 12 _ (by omega)]
    exact decodeI32_setI32_same _ _ _ (by rw [hdiv]; omega) (by rw [hdiv]; omega)
  · rw [format_fold_at0, diskWrite_same]
    exact decodeI32_setI32_same _ _ _ (by rw [hdiv]; omega) (by rw [hdiv]; omega)
  · intro b k hbn hk
    obtain ⟨blk, he⟩ := format_fold_tbl _ _ b hbn
    rw [he]
    exact zeroIsvalids_decode blk k hk

/-- Claim C8, witness: the amended theorem applied at the concrete
unmounted 25-block state `s8`, every hypothesis discharged there. -/
theorem C8_format_amended_witness :
    s8.is_mounted = false
    ∧ s8.nblocksDisk < 16777216
    ∧ (fs_format s8).2 = 1 :=
  ⟨rfl, by decide, (C8_format_amended s8 rfl (by decide)).1⟩

/-- A zero-length `fs_write` direct loop does nothing. -/
theorem writeDirLoop_zero (src : Int → Nat) (numPtrs nblocks slot : Int)
    (fuel : Nat) (i j : Int) (st : WSt) :
    writeDirLoop src 0 numPtrs nblocks slot fuel i j st = (st, i, j, true) :=
  writeDirLoop_done _ _ _ _ _ _ _ _ _ (Int.ofNat_nonneg st.written)

/-- A zero-length `fs_write` indirect loop does nothing. -/
theorem writeIndLoop_zero (src : Int → Nat) (np2 nblocks : Int)
    (fuel : Nat) (i j : Int) (st : WISt) :
    writeIndLoop src 0 np2 nblocks fuel i j st = st :=
  writeIndLoop_done _ _ _ _ _ _ _ _ (Int.ofNat_nonneg st.written)

/-- Replacing `disk` and `disk_block_bitmap` by themselves is the
identity. -/
theorem FSState_update_self (s : FSState) :
    ({ s with disk := s.disk, disk_block_bitmap := s.disk_block_bitmap } : FSState) = s := by
  cases s
  rfl

/-- Claim C10: a zero-length write is an observational no-op.  For every
mounted state over a well-formed (byte-valued) disk, every live inode
`i` and every offset with `0 ≤ offset ≤ size`, `fs_write i src 0 offset`
returns 0 and the state — disk image, both bitmaps and the flag — is
unchanged: no block is allocated, and the inode-table block is rewritten
with identical contents. -/
theorem C10_zero_write_noop (s : FSState) (src : Int → Nat) (i offset : Int)
    (hw : WFBytes s.disk)
    (hm : s.is_mounted = true)
    (h1 : 1 ≤ i)
    (h2 : i < decodeI32 (s.disk 0) 12)
    (hv : decodeI32 (s.disk (Int.tdiv i 128 + 1)) (32 * Int.tmod i 128) ≠ 0)
    (ho : 0 ≤ offset)
    (hsz : offset ≤ decodeI32 (s.disk (Int.tdiv i 128 + 1)) (32 * Int.tmod i 128 + 4)) :
    fs_write s src i 0 offset = (s, 0) := by
  have g1 : ¬(i ≤ 0 ∨ decodeI32 (s.disk 0) 12 ≤ i) := by omega
  have g2 : ¬(decodeI32 (s.disk (Int.tdiv i 128 + 1)) (32 * Int.tmod i 128) = 0
      ∨ decodeI32 (s.disk (Int.tdiv i 128 + 1)) (32 * Int.tmod i 128 + 4) < offset) := by
    push_neg
    exact ⟨hv, by omega⟩
  simp only [fs_write, g1, g2, if_false, writeDirLoop_zero]
  simp only [writeIndPhase, writeFinish, writeIndLoop_zero]
  have hsz2 : -cmin (-decodeI32 (s.disk (Int.tdiv i 128 + 1)) (32 * Int.tmod i 128 + 4))
      (-offset) = decodeI32 (s.disk (Int.tdiv i 128 + 1)) (32 * Int.tmod i 128 + 4) := by
    unfold cmin
    split <;> omega
  simp only [Nat.cast_zero, add_zero, lt_self_iff_false, and_false, Bool.true_eq_false,
    Bool.false_eq_true, if_false, ite_false]
  rw [hsz2, setI32_decode_self _ _ (fun o => hw _ o), diskWrite_self]

/-- Claim C10, witness: the theorem applied at the concrete mounted state
`s3` (live inode 1, size 7), inode 1, offset 0, every hypothesis
discharged there. -/
theorem C10_zero_write_noop_witness :
    WFBytes s3.disk
    ∧ s3.is_mounted = true
    ∧ (1 : Int) ≤ 1
    ∧ (1 : Int) < decodeI32 (s3.disk 0) 12
    ∧ decodeI32 (s3.disk (Int.tdiv 1 128 + 1)) (32 * Int.tmod 1 128) ≠ 0
    ∧ (0 : Int) ≤ 0
    ∧ (0 : Int) ≤ decodeI32 (s3.disk (Int.tdiv 1 128 + 1)) (32 * Int.tmod 1 128 + 4)
    ∧ fs_write s3 src42 1 0 0 = (s3, 0) :=
  ⟨s3_wf, rfl, by decide, by decide, by decide, by decide, by decide,
    C10_zero_write_noop s3 src42 1 0 s3_wf rfl (by decide) (by decide) (by decide)
      (by decide) (by decide)⟩

end SimpleFS
